import Mathlib

/-!
Shallow embedding of the esfsm_stock Odoo module (Palifra/esfsm_stock):
material lines with a planned/taken/used/returned quantity lifecycle,
the quantity constraints, the job completion gate, the source-location
resolution chain and the add/take/consume/return wizard confirmation
flows.  Quantities (Odoo Float fields) are modelled as rationals; raising
odoo.exceptions.ValidationError is modelled as returning Except.error.
-/

namespace EsfsmStock

/-- Validation errors raised by the module (odoo.exceptions.ValidationError),
carrying the data the source interpolates into the message text. -/
inductive VErr where
  | usedExceedsTaken (used taken : ℚ) (product : Nat)
  | returnedExceedsAvailable (returned available : ℚ) (product : Nat)
  | emptyBatch
  | invalidLine
  deriving DecidableEq, Repr

/-- Material line (model esfsm.job.material, src/models/esfsm_job_material.py):
product reference plus the four lifecycle quantity fields and the unit price;
all quantity fields default to 0.0 in the source. -/
structure MaterialLine where
  product : Nat
  plannedQty : ℚ := 0
  takenQty : ℚ := 0
  usedQty : ℚ := 0
  returnedQty : ℚ := 0
  priceUnit : ℚ := 0
  deriving DecidableEq, Repr

/-- Computed field available_to_return_qty (_compute_available_to_return_qty):
taken_qty - used_qty - returned_qty. -/
def availableToReturnQty (m : MaterialLine) : ℚ :=
  m.takenQty - m.usedQty - m.returnedQty

/-- Computed field price_subtotal (_compute_price_subtotal):
used_qty * price_unit. -/
def priceSubtotal (m : MaterialLine) : ℚ :=
  m.usedQty * m.priceUnit

/-- Constraint _check_used_quantity: raises when used_qty > taken_qty. -/
def checkUsedQuantity (m : MaterialLine) : Except VErr Unit :=
  if m.usedQty > m.takenQty then
    Except.error (VErr.usedExceedsTaken m.usedQty m.takenQty m.product)
  else Except.ok ()

/-- Constraint _check_returned_quantity: only checked when returned_qty > 0;
raises when returned_qty > taken_qty - used_qty. -/
def checkReturnedQuantity (m : MaterialLine) : Except VErr Unit :=
  if m.returnedQty > 0 then
    if m.returnedQty > m.takenQty - m.usedQty then
      Except.error
        (VErr.returnedExceedsAvailable m.returnedQty (m.takenQty - m.usedQty) m.product)
    else Except.ok ()
  else Except.ok ()

/-- Both api.constrains checks, evaluated by the ORM after every create and
write inside the transaction. -/
def checkConstraints (m : MaterialLine) : Except VErr Unit :=
  match checkUsedQuantity m with
  | Except.error e => Except.error e
  | Except.ok _ => checkReturnedQuantity m

/-- Values dictionary passed to create/write; a none field is absent from the
dict and leaves the stored (or default) value in place. -/
structure MaterialVals where
  plannedQty : Option ℚ := none
  takenQty : Option ℚ := none
  usedQty : Option ℚ := none
  returnedQty : Option ℚ := none
  priceUnit : Option ℚ := none
  deriving DecidableEq, Repr

/-- ORM field update: each field present in the vals dict overwrites the
stored one. -/
def applyVals (m : MaterialLine) (v : MaterialVals) : MaterialLine :=
  { m with
    plannedQty := v.plannedQty.getD m.plannedQty
    takenQty := v.takenQty.getD m.takenQty
    usedQty := v.usedQty.getD m.usedQty
    returnedQty := v.returnedQty.getD m.returnedQty
    priceUnit := v.priceUnit.getD m.priceUnit }

/-- Test made by EsfsmJobMaterial.write: does the vals dict touch one of
quantity_fields = [taken_qty, used_qty, returned_qty]. -/
def changedQtyFields (v : MaterialVals) : Bool :=
  v.takenQty.isSome || v.usedQty.isSome || v.returnedQty.isSome

/-- Result of a write that completed: the stored line and whether the
direct-write warning was logged. -/
structure WriteResult where
  line : MaterialLine
  warned : Bool
  deriving DecidableEq, Repr

/-- EsfsmJobMaterial.write: with the skip_auto_picking context flag the super
write runs directly; without it a warning is logged whenever quantity fields
appear in vals, and the super write still runs unchanged.  The ORM then
evaluates the constraints; a violation raises and rolls the write back. -/
def materialWrite (skipAutoPicking : Bool) (m : MaterialLine) (v : MaterialVals) :
    Except VErr WriteResult :=
  match checkConstraints (applyVals m v) with
  | Except.error e => Except.error e
  | Except.ok _ =>
    Except.ok { line := applyVals m v, warned := !skipAutoPicking && changedQtyFields v }

/-- EsfsmJobMaterial.create for one vals dict: fields absent from vals take
the field defaults (0.0); the constraints are evaluated on the new record. -/
def materialCreate (product : Nat) (v : MaterialVals) : Except VErr MaterialLine :=
  match checkConstraints (applyVals { product := product } v) with
  | Except.error e => Except.error e
  | Except.ok _ => Except.ok (applyVals { product := product } v)

/-- Job extension (model esfsm.job, src/models/esfsm_job.py): the one2many
material_ids. -/
structure Job where
  materials : List MaterialLine
  deriving DecidableEq, Repr

/-- Computed has_materials_to_consume (_compute_has_materials_to_consume):
any line with taken_qty - used_qty - returned_qty > 0. -/
def hasMaterialsToConsume (j : Job) : Bool :=
  j.materials.any fun m => decide (m.takenQty - m.usedQty - m.returnedQty > 0)

/-- Lines filtered by _compute_has_materials_to_return:
taken_qty - used_qty - returned_qty > 0. -/
def materialsToReturn (j : Job) : List MaterialLine :=
  j.materials.filter fun m => decide (m.takenQty - m.usedQty - m.returnedQty > 0)

/-- Computed has_materials_to_return: the filtered recordset is non-empty. -/
def hasMaterialsToReturn (j : Job) : Bool :=
  !(materialsToReturn j).isEmpty

/-- Computed materials_to_return_count: size of the filtered recordset. -/
def materialsToReturnCount (j : Job) : Nat :=
  (materialsToReturn j).length

/-- Computed material_total (_compute_material_total): sum of the lines'
price_subtotal. -/
def materialTotal (j : Job) : ℚ :=
  (j.materials.map priceSubtotal).sum

/-- Outcome of EsfsmJob.action_complete: either the ValidationError, raised
before any state change so the job is carried unchanged, or delegation to
super().action_complete() on the unchanged job. -/
inductive CompleteResult where
  | failed (job : Job) (details : List (Nat × ℚ))
  | delegated (job : Job)
  deriving DecidableEq, Repr

/-- EsfsmJob.action_complete: filters material_ids on
available_to_return_qty > 0; when the filter is non-empty raises a
ValidationError listing each offending product with its outstanding quantity,
otherwise delegates to the host completion. -/
def actionComplete (j : Job) : CompleteResult :=
  let unreturned := j.materials.filter fun m => decide (availableToReturnQty m > 0)
  if unreturned.isEmpty then CompleteResult.delegated j
  else CompleteResult.failed j (unreturned.map fun m => (m.product, availableToReturnQty m))

/-- Stock location identifier. -/
abbrev LocId := Nat

/-- Employee extension (hr.employee): optional assigned vehicle; per the spec
the employee transitively exposes the vehicle stock location. -/
structure EmployeeLoc where
  vehicleLocation : Option LocId
  deriving DecidableEq, Repr

/-- Location-relevant job context: the team vehicle stock location
(team_id.vehicle_id.stock_location_id) and the assigned employees. -/
structure JobLocCtx where
  teamVehicleLocation : Option LocId
  employees : List EmployeeLoc
  deriving DecidableEq, Repr

/-- Host-environment lookups used by the fallback chain of
EsfsmJob._get_source_location: the esfsm_stock.stock_location_field_technicians
reference, the lot_stock_id of the first warehouse of the company, the
stock.stock_location_stock reference, and the first internal-usage location
search result; any of them can resolve to empty. -/
structure StockEnv where
  fieldTechLocation : Option LocId
  companyWarehouseStock : Option LocId
  stockLocationStockRef : Option LocId
  anyInternalLocation : Option LocId
  deriving DecidableEq, Repr

/-- Modelled from the spec: stock.location.provider.get_fsm_location comes
from the external eskon_reverse module and its code is not part of this
repository; per the spec it returns the team vehicle location first, else the
first assigned employee location (exposed transitively from the employee
vehicle), else nothing. -/
def getFsmLocation (j : JobLocCtx) : Option LocId :=
  match j.teamVehicleLocation with
  | some l => some l
  | none =>
    match j.employees with
    | [] => none
    | e :: _ => e.vehicleLocation

/-- Tail of the fallback chain of _get_source_location: the company warehouse
lot_stock_id, then the stock.stock_location_stock reference or any
internal-usage location. -/
def warehouseFallback (env : StockEnv) : Option LocId :=
  match env.companyWarehouseStock with
  | some l => some l
  | none =>
    match env.stockLocationStockRef with
    | some l => some l
    | none => env.anyInternalLocation

/-- EsfsmJob._get_source_location: the provider result first; else, only when
the job has assigned employees, the field-technicians reference; else the
warehouse chain.  The function is total: no step can raise. -/
def getSourceLocation (env : StockEnv) (j : JobLocCtx) : Option LocId :=
  match getFsmLocation j with
  | some l => some l
  | none =>
    if !j.employees.isEmpty then
      match env.fieldTechLocation with
      | some l => some l
      | none => warehouseFallback env
    else warehouseFallback env

/-- Priority chain exactly as the claim words it: the first available of team
vehicle location, first employee location, field technicians pool, company
warehouse stock, any internal location (the stock.stock_location_stock
reference sits in the warehouse tail).  Written for comparison against
getSourceLocation, which embeds the source. -/
def specSourceLocation (env : StockEnv) (j : JobLocCtx) : Option LocId :=
  (getFsmLocation j).orElse fun _ =>
    env.fieldTechLocation.orElse fun _ => warehouseFallback env

/-- Observable picking-creation and line-update events of a wizard confirm. -/
inductive Event where
  | pickingViaService
  | pickingDirect
  | lineWrite (idx : Nat) (tagged : Bool)
  deriving DecidableEq, Repr

/-- Test whether an event is the creation of a transfer document. -/
def Event.isPicking : Event → Bool
  | Event.pickingViaService => true
  | Event.pickingDirect => true
  | Event.lineWrite _ _ => false

/-- Wizard line shared by the take/consume/return wizards: reference to a
material line of the job, product reference, and the staged quantity
(take_qty / consume_qty / return_qty). -/
structure WizLine where
  materialIdx : Option Nat
  product : Option Nat
  qty : ℚ
  deriving DecidableEq, Repr

/-- Vals written by the take wizard loop: taken_qty := taken_qty + take_qty. -/
def takeUpd (m : MaterialLine) (q : ℚ) : MaterialVals :=
  { takenQty := some (m.takenQty + q) }

/-- Vals written by the consume wizard loop: used_qty := used_qty + consume_qty. -/
def consumeUpd (m : MaterialLine) (q : ℚ) : MaterialVals :=
  { usedQty := some (m.usedQty + q) }

/-- Vals written by the return wizard loop:
returned_qty := returned_qty + return_qty. -/
def returnUpd (m : MaterialLine) (q : ℚ) : MaterialVals :=
  { returnedQty := some (m.returnedQty + q) }

/-- Per-line update loop shared in shape by the three confirm methods: tag is
the skip_auto_picking context flag on the write, upd builds the written vals,
and skipNonPos models the return-wizard loop skipping lines with
return_qty <= 0 via continue.  Each completed write appends a lineWrite
event. -/
def applyWizardWrites (tag : Bool) (upd : MaterialLine → ℚ → MaterialVals) (skipNonPos : Bool)
    (ms : List MaterialLine) (ls : List WizLine) (evs : List Event) :
    Except VErr (List MaterialLine × List Event) :=
  match ls with
  | [] => Except.ok (ms, evs)
  | l :: rest =>
    if skipNonPos && !decide (l.qty > 0) then
      applyWizardWrites tag upd skipNonPos ms rest evs
    else
      match l.materialIdx with
      | none => Except.error VErr.invalidLine
      | some i =>
        match ms[i]? with
        | none => Except.error VErr.invalidLine
        | some m =>
          match materialWrite tag m (upd m l.qty) with
          | Except.error e => Except.error e
          | Except.ok r =>
            applyWizardWrites tag upd skipNonPos (ms.set i r.line)
              rest (evs ++ [Event.lineWrite i tag])

/-- Filter applied by EsfsmTakeMaterialWizard.action_confirm:
take_qty > 0 with a material line reference and a product set. -/
def takeLinesFilter (ls : List WizLine) : List WizLine :=
  ls.filter fun l => decide (l.qty > 0) && l.materialIdx.isSome && l.product.isSome

/-- EsfsmTakeMaterialWizard.action_confirm: rejects an empty batch of takeable
lines, creates one picking via
esfsm.stock.picking.service.create_reverse_picking, then writes taken_qty on
each taken line with the skip_auto_picking flag set. -/
def takeConfirm (ms : List MaterialLine) (ls : List WizLine) :
    Except VErr (List MaterialLine × List Event) :=
  if (takeLinesFilter ls).isEmpty then Except.error VErr.emptyBatch
  else applyWizardWrites true takeUpd false ms (takeLinesFilter ls) [Event.pickingViaService]

/-- Filter applied by EsfsmConsumeMaterialWizard.action_confirm:
consume_qty > 0. -/
def consumeLinesFilter (ls : List WizLine) : List WizLine :=
  ls.filter fun l => decide (l.qty > 0)

/-- EsfsmConsumeMaterialWizard.action_confirm: rejects an empty batch, creates
one picking via esfsm.stock.picking.service.create_delivery_picking, then
writes used_qty on each consumed line with the skip_auto_picking flag set. -/
def consumeConfirm (ms : List MaterialLine) (ls : List WizLine) :
    Except VErr (List MaterialLine × List Event) :=
  if (consumeLinesFilter ls).isEmpty then Except.error VErr.emptyBatch
  else applyWizardWrites true consumeUpd false ms (consumeLinesFilter ls) [Event.pickingViaService]

/-- EsfsmReturnMaterialWizard.action_confirm: rejects an empty batch of wizard
lines, creates its picking directly through stock.picking.create (not through
the picking service), then walks the lines skipping return_qty <= 0 and
increases returned_qty through a write WITHOUT the skip_auto_picking flag. -/
def returnConfirm (ms : List MaterialLine) (ls : List WizLine) :
    Except VErr (List MaterialLine × List Event) :=
  if ls.isEmpty then Except.error VErr.emptyBatch
  else applyWizardWrites false returnUpd true ms ls [Event.pickingDirect]

/-- Trace shape asserted by the claim for every one of the three wizards: the
single transfer document is created via the picking service and every material
line update carries the skip_auto_picking tag. -/
def claimTrace (evs : List Event) : Bool :=
  (evs.filter fun e => e == Event.pickingViaService).length == 1 &&
    evs.all fun e =>
      match e with
      | Event.lineWrite _ tagged => tagged
      | _ => true

/-- Frame and event properties of one wizard confirm run: the single picking
event (pick names which kind) comes first, everything after it is a line write
carrying the given tag, lines of the job not referenced by an applied wizard
line are untouched, and - when the applied wizard lines reference pairwise
distinct material lines - each referenced line is exactly the old line with
the one accumulator advanced by the staged quantity. -/
def ConfirmPost (tag : Bool) (updLine : MaterialLine → ℚ → MaterialLine) (pick : Event)
    (ms : List MaterialLine) (applied : List WizLine)
    (ms2 : List MaterialLine) (evs : List Event) : Prop :=
  evs.head? = some pick ∧
  (∀ e ∈ evs.tail, ∃ i, e = Event.lineWrite i tag) ∧
  evs.filter Event.isPicking = [pick] ∧
  ms2.length = ms.length ∧
  (∀ j, (∀ l ∈ applied, l.materialIdx ≠ some j) → ms2[j]? = ms[j]?) ∧
  ((applied.map fun l => l.materialIdx).Pairwise (fun a b => a ≠ b) →
    ∀ l ∈ applied, ∀ j, l.materialIdx = some j →
      ∃ m, ms[j]? = some m ∧ ms2[j]? = some (updLine m l.qty))

/-- Wizard line of esfsm.add.material.wizard: product and staged quantity. -/
structure AddWizLine where
  product : Nat
  qty : ℚ
  deriving DecidableEq, Repr

/-- Loop of EsfsmAddMaterialWizard.action_confirm over the staged lines: lines
with qty <= 0 are skipped (continue); for a product that already has a
material line on the job the first matching line gets taken_qty increased
through an untagged write; otherwise a new material line is created with
planned_qty and taken_qty both the staged quantity and price_unit the product
standard_price. -/
def addLines (stdPrice : Nat → ℚ) (ms : List MaterialLine) :
    List AddWizLine → Except VErr (List MaterialLine)
  | [] => Except.ok ms
  | l :: rest =>
    if l.qty ≤ 0 then addLines stdPrice ms rest
    else
      match ms.findIdx? (fun m => m.product == l.product) with
      | some i =>
        match ms[i]? with
        | none => Except.error VErr.invalidLine
        | some m =>
          match materialWrite false m { takenQty := some (m.takenQty + l.qty) } with
          | Except.error e => Except.error e
          | Except.ok r => addLines stdPrice (ms.set i r.line) rest
      | none =>
        match materialCreate l.product
            { plannedQty := some l.qty, takenQty := some l.qty,
              priceUnit := some (stdPrice l.product) } with
        | Except.error e => Except.error e
        | Except.ok m => addLines stdPrice (ms ++ [m]) rest

/-- EsfsmAddMaterialWizard.action_confirm: rejects an empty batch, then walks
the staged lines.  The picking and stock moves it creates directly never touch
material lines and are not tracked here. -/
def addConfirm (stdPrice : Nat → ℚ) (ms : List MaterialLine) (ls : List AddWizLine) :
    Except VErr (List MaterialLine) :=
  if ls.isEmpty then Except.error VErr.emptyBatch
  else addLines stdPrice ms ls

/-- Concrete job used by the C1 witness. -/
def gateJob : Job := { materials := [{ product := 7, takenQty := 10, usedQty := 6 }] }

/-- Concrete line used by the C2 example and witness: taken 10, used 6. -/
def exLine : MaterialLine := { product := 1, takenQty := 10, usedQty := 6 }

/-- Result of writing returned_qty = 4 on exLine. -/
def exWritten : MaterialLine := { product := 1, takenQty := 10, usedQty := 6, returnedQty := 4 }

/-- Environment of the C5 counterexample: the field-technicians pool and the
company warehouse both exist. -/
def cexEnv : StockEnv :=
  { fieldTechLocation := some 7, companyWarehouseStock := some 9,
    stockLocationStockRef := none, anyInternalLocation := none }

/-- Job of the C5 counterexample: no team vehicle, no assigned employees. -/
def cexJob : JobLocCtx := { teamVehicleLocation := none, employees := [] }

/-- Job of the C5 witness: the team vehicle is at location 3 while the
employee vehicle is at location 4. -/
def teamJob : JobLocCtx :=
  { teamVehicleLocation := some 3, employees := [{ vehicleLocation := some 4 }] }

/-- Material line of the C6 counterexample and return run. -/
def retMat : MaterialLine := { product := 1, takenQty := 10, usedQty := 6 }

/-- Return-wizard line staging a return of 4 units of retMat. -/
def retLine : WizLine := { materialIdx := some 0, product := some 1, qty := 4 }

/-- Material line of the C6 witness take run. -/
def takeMat : MaterialLine := { product := 1, plannedQty := 5 }

/-- Take-wizard line staging a take of 3 units of takeMat. -/
def takeLine : WizLine := { materialIdx := some 0, product := some 1, qty := 3 }

/-- Line stored by the witness take run. -/
def takeMatAfter : MaterialLine := { product := 1, plannedQty := 5, takenQty := 3 }

/-- Material line created with planned_qty = -1, which the C8 counterexample
shows the constraints accept. -/
def negLine : MaterialLine := { product := 1, plannedQty := -1 }

/-- Material line created by the C10 witness. -/
def addedLine : MaterialLine :=
  { product := 2, plannedQty := 3, takenQty := 3, priceUnit := 5 }

/-- Passing both constraint checks yields the two quantity invariants. -/
theorem checkConstraints_ok_inv {m : MaterialLine} {u : Unit}
    (h : checkConstraints m = Except.ok u) :
    m.usedQty ≤ m.takenQty ∧ m.returnedQty ≤ m.takenQty - m.usedQty := by
  unfold checkConstraints checkUsedQuantity checkReturnedQuantity at h
  by_cases h1 : m.usedQty > m.takenQty
  · simp [h1] at h
  · by_cases h2 : m.returnedQty > 0
    · by_cases h3 : m.returnedQty > m.takenQty - m.usedQty
      · simp [h1, h2, h3] at h
      · exact ⟨le_of_not_lt h1, le_of_not_lt h3⟩
    · refine ⟨le_of_not_lt h1, ?_⟩
      have h4 : m.returnedQty ≤ 0 := le_of_not_lt h2
      have h5 : m.usedQty ≤ m.takenQty := le_of_not_lt h1
      linarith

/-- Shape of a write that completed: the stored line is the vals applied over
the old line, the warning flag is set exactly on an untagged quantity write,
and the constraints accepted the stored line. -/
theorem materialWrite_ok_eq {skip : Bool} {m : MaterialLine} {v : MaterialVals}
    {r : WriteResult} (h : materialWrite skip m v = Except.ok r) :
    r = { line := applyVals m v, warned := !skip && changedQtyFields v } ∧
    ∃ u, checkConstraints (applyVals m v) = Except.ok u := by
  unfold materialWrite at h
  cases hc : checkConstraints (applyVals m v) with
  | error e => rw [hc] at h; cases h
  | ok u => rw [hc] at h; cases h; exact ⟨rfl, u, hc ▸ rfl⟩

/-- C1: action_complete raises exactly when some material line has
available_to_return_qty > 0; the error lists each offending product with its
outstanding quantity, the job state is carried unchanged into the error, and
otherwise completion is delegated to the host on the unchanged job. -/
theorem action_complete_gate (j : Job) :
    ((∃ m ∈ j.materials, availableToReturnQty m > 0) →
      actionComplete j = CompleteResult.failed j
        ((j.materials.filter fun m => decide (availableToReturnQty m > 0)).map
          fun m => (m.product, availableToReturnQty m))) ∧
    ((∀ m ∈ j.materials, ¬ availableToReturnQty m > 0) →
      actionComplete j = CompleteResult.delegated j) := by
  constructor
  · rintro ⟨m, hm, hgt⟩
    have hne : ¬ ((j.materials.filter fun m =>
        decide (availableToReturnQty m > 0)).isEmpty = true) := by
      simp only [List.isEmpty_eq_true, List.filter_eq_nil_iff]
      push_neg
      exact ⟨m, hm, by simpa using hgt⟩
    simp only [actionComplete]
    rw [if_neg hne]
  · intro hall
    have hemp : (j.materials.filter fun m =>
        decide (availableToReturnQty m > 0)).isEmpty = true := by
      simp only [List.isEmpty_eq_true, List.filter_eq_nil_iff]
      intro a ha
      simpa using hall a ha
    simp only [actionComplete]
    rw [if_pos hemp]

/-- Witness for C1: a job with one line still holding 4 returnable units fails
completion with that product and quantity listed. -/
theorem action_complete_gate_witness :
    actionComplete gateJob = CompleteResult.failed gateJob [(7, 4)] :=
  ((action_complete_gate gateJob).1
    ⟨{ product := 7, takenQty := 10, usedQty := 6 }, by simp [gateJob],
      by norm_num [availableToReturnQty]⟩).trans
    (by norm_num [gateJob, availableToReturnQty])

/-- C2: after every create or write of a material line that completes without
raising, used_qty is at most taken_qty and returned_qty is at most
taken_qty - used_qty; on the example line with taken 10 and used 6, writing
returned_qty = 5 raises the validation error and writing returned_qty = 4
stores the value. -/
theorem quantity_invariants :
    (∀ (skip : Bool) (m : MaterialLine) (v : MaterialVals) (r : WriteResult),
      materialWrite skip m v = Except.ok r →
      r.line.usedQty ≤ r.line.takenQty ∧
        r.line.returnedQty ≤ r.line.takenQty - r.line.usedQty) ∧
    (∀ (p : Nat) (v : MaterialVals) (m : MaterialLine),
      materialCreate p v = Except.ok m →
      m.usedQty ≤ m.takenQty ∧ m.returnedQty ≤ m.takenQty - m.usedQty) ∧
    materialWrite true exLine { returnedQty := some 5 } =
      Except.error (VErr.returnedExceedsAvailable 5 4 1) ∧
    materialWrite true exLine { returnedQty := some 4 } =
      Except.ok { line := exWritten, warned := false } := by
  refine ⟨?_, ?_, ?_, ?_⟩
  · intro skip m v r h
    obtain ⟨hr, u, hc⟩ := materialWrite_ok_eq h
    subst hr
    exact checkConstraints_ok_inv hc
  · intro p v m h
    unfold materialCreate at h
    cases hc : checkConstraints (applyVals { product := p } v) with
    | error e => rw [hc] at h; cases h
    | ok u => rw [hc] at h; cases h; exact checkConstraints_ok_inv hc
  · norm_num [materialWrite, checkConstraints, checkUsedQuantity, checkReturnedQuantity,
      applyVals, exLine]
  · norm_num [materialWrite, checkConstraints, checkUsedQuantity, checkReturnedQuantity,
      applyVals, changedQtyFields, exLine, exWritten]

/-- Witness for C2: the successful returned_qty = 4 write satisfies both
invariants. -/
theorem quantity_invariants_witness :
    exWritten.usedQty ≤ exWritten.takenQty ∧
      exWritten.returnedQty ≤ exWritten.takenQty - exWritten.usedQty :=
  quantity_invariants.1 true exLine { returnedQty := some 4 }
    { line := exWritten, warned := false } quantity_invariants.2.2.2

/-- C3: the computed available_to_return_qty equals
taken_qty - used_qty - returned_qty on every material line, whatever the
values of the three quantities. -/
theorem available_to_return_eq (m : MaterialLine) :
    availableToReturnQty m = m.takenQty - m.usedQty - m.returnedQty := rfl

/-- C4: price_subtotal is used_qty * price_unit on every line, and the job
material_total is the sum of price_subtotal over its material lines. -/
theorem subtotal_and_total (m : MaterialLine) (j : Job) :
    priceSubtotal m = m.usedQty * m.priceUnit ∧
    materialTotal j = (j.materials.map priceSubtotal).sum :=
  ⟨rfl, rfl⟩

/-- Any over a predicate agrees with non-emptiness of the filter by it. -/
theorem any_eq_not_isEmpty_filter {α : Type} (p : α → Bool) (l : List α) :
    l.any p = !(l.filter p).isEmpty := by
  induction l with
  | nil => rfl
  | cons a t ih =>
    by_cases h : p a = true
    · simp [List.any_cons, List.filter_cons, h]
    · simp [List.any_cons, List.filter_cons, h, ih]

/-- C9: has_materials_to_consume and has_materials_to_return always coincide,
are true exactly when some line has taken_qty - used_qty - returned_qty > 0,
and materials_to_return_count counts exactly those lines. -/
theorem consume_return_flags (j : Job) :
    hasMaterialsToConsume j = hasMaterialsToReturn j ∧
    (hasMaterialsToReturn j = true ↔
      ∃ m ∈ j.materials, m.takenQty - m.usedQty - m.returnedQty > 0) ∧
    materialsToReturnCount j =
      (j.materials.filter fun m =>
        decide (m.takenQty - m.usedQty - m.returnedQty > 0)).length := by
  refine ⟨?_, ?_, rfl⟩
  · simp only [hasMaterialsToConsume, hasMaterialsToReturn, materialsToReturn]
    exact any_eq_not_isEmpty_filter _ _
  · simp only [hasMaterialsToReturn, materialsToReturn, ← any_eq_not_isEmpty_filter]
    simp [List.any_eq_true]

/-- Witness for C9: on a concrete job with one returnable line the two flags
agree. -/
theorem consume_return_flags_witness :
    hasMaterialsToConsume gateJob = hasMaterialsToReturn gateJob :=
  (consume_return_flags gateJob).1

/-- C5 counterexample: on a job with no team vehicle and no assigned
employees, with the field-technicians pool and the company warehouse both
present, the code skips the pool and returns the warehouse stock location,
while the chain the claim words would return the pool. -/
theorem source_location_cex :
    getSourceLocation cexEnv cexJob = some 9 ∧
    specSourceLocation cexEnv cexJob = some 7 ∧
    getSourceLocation cexEnv cexJob ≠ specSourceLocation cexEnv cexJob :=
  ⟨rfl, rfl, by decide⟩

/-- C5 amended: resolution follows the claimed chain except that the
field-technicians pool is consulted only when the job has at least one
assigned employee; a team vehicle location always wins regardless of the
employees and their vehicles; and when every step resolves to empty the
result is empty rather than an error. -/
theorem source_location_priority (env : StockEnv) (j : JobLocCtx) :
    getSourceLocation env j =
      ((getFsmLocation j).orElse fun _ =>
        (if j.employees.isEmpty then none else env.fieldTechLocation).orElse fun _ =>
          warehouseFallback env) ∧
    (∀ l, j.teamVehicleLocation = some l → getSourceLocation env j = some l) ∧
    (j.teamVehicleLocation = none → j.employees = [] → env.fieldTechLocation = none →
      env.companyWarehouseStock = none → env.stockLocationStockRef = none →
      env.anyInternalLocation = none → getSourceLocation env j = none) := by
  refine ⟨?_, ?_, ?_⟩
  · cases hf : getFsmLocation j with
    | some l => simp [getSourceLocation, hf, Option.orElse]
    | none =>
      cases hE : j.employees.isEmpty with
      | true => simp [getSourceLocation, hf, hE, Option.orElse]
      | false =>
        cases hft : env.fieldTechLocation with
        | none => simp [getSourceLocation, hf, hE, hft, Option.orElse]
        | some l => simp [getSourceLocation, hf, hE, hft, Option.orElse]
  · intro l hl
    simp [getSourceLocation, getFsmLocation, hl]
  · intro h1 h2 h3 h4 h5 h6
    simp [getSourceLocation, getFsmLocation, warehouseFallback, h1, h2, h3, h4, h5, h6]

/-- Witness for C5: a job whose team vehicle sits at location 3 resolves there
even though its employee vehicle sits at location 4. -/
theorem source_location_priority_witness :
    getSourceLocation cexEnv teamJob = some 3 :=
  (source_location_priority cexEnv teamJob).2.1 3 rfl

/-- C7: an untagged write that increases taken_qty or used_qty logs the
warning but is not blocked: when the constraints accept the new values the
write completes and stores them with the warning flag set, and its only
failure source is the quantity constraints. -/
theorem untagged_write_warns (m : MaterialLine) (v : MaterialVals)
    (hinc : (∃ x, v.takenQty = some x ∧ m.takenQty < x) ∨
            (∃ x, v.usedQty = some x ∧ m.usedQty < x)) :
    (∀ u, checkConstraints (applyVals m v) = Except.ok u →
      materialWrite false m v = Except.ok { line := applyVals m v, warned := true }) ∧
    (∀ e, materialWrite false m v = Except.error e →
      checkConstraints (applyVals m v) = Except.error e) := by
  have hch : changedQtyFields v = true := by
    rcases hinc with ⟨x, hx, _⟩ | ⟨x, hx, _⟩ <;> simp [changedQtyFields, hx]
  constructor
  · intro u hc
    unfold materialWrite
    rw [hc]
    simp [hch]
  · intro e he
    unfold materialWrite at he
    cases hc : checkConstraints (applyVals m v) with
    | error e2 => rw [hc] at he; cases he; rfl
    | ok u => rw [hc] at he; cases he

/-- Witness for C7: increasing taken_qty from 0 to 2 without the tag stores
the value with the warning logged. -/
theorem untagged_write_warns_witness :
    materialWrite false { product := 3 } { takenQty := some 2 } =
      Except.ok { line := { product := 3, takenQty := 2 }, warned := true } :=
  (untagged_write_warns { product := 3 } { takenQty := some 2 }
    (Or.inl ⟨2, rfl, by norm_num⟩)).1 ()
    (by norm_num [checkConstraints, checkUsedQuantity, checkReturnedQuantity, applyVals])

/-- C8 counterexample: creating a line with planned_qty = -1 passes both
constraint checks, so the claimed non-negativity does not hold after a create
that completes without raising. -/
theorem negative_planned_create_cex :
    materialCreate 1 { plannedQty := some (-1) } = Except.ok negLine ∧
      negLine.plannedQty < 0 := by
  constructor
  · norm_num [materialCreate, checkConstraints, checkUsedQuantity, checkReturnedQuantity,
      applyVals, negLine]
  · norm_num [negLine]

/-- C8 amended: a material line carries the four quantity fields, each
defaulting to 0; after a create that completes without raising, used_qty is at
most taken_qty and returned_qty is at most taken_qty - used_qty, but no
constraint forces any of the four quantities to be non-negative. -/
theorem material_quantity_fields (p : Nat) (v : MaterialVals) (m : MaterialLine)
    (h : materialCreate p v = Except.ok m) :
    (v.plannedQty = none → m.plannedQty = 0) ∧
    (v.takenQty = none → m.takenQty = 0) ∧
    (v.usedQty = none → m.usedQty = 0) ∧
    (v.returnedQty = none → m.returnedQty = 0) ∧
    m.usedQty ≤ m.takenQty ∧ m.returnedQty ≤ m.takenQty - m.usedQty := by
  unfold materialCreate at h
  cases hc : checkConstraints (applyVals { product := p } v) with
  | error e => rw [hc] at h; cases h
  | ok u =>
    rw [hc] at h
    cases h
    refine ⟨?_, ?_, ?_, ?_, checkConstraints_ok_inv hc⟩
    all_goals intro hn
    all_goals simp [applyVals, hn]

/-- Witness for C8: a create with an empty vals dict yields a line whose
planned quantity is the 0 default. -/
theorem material_quantity_fields_witness :
    ({ product := 1 } : MaterialLine).plannedQty = 0 :=
  (material_quantity_fields 1 {} { product := 1 }
    (by norm_num [materialCreate, checkConstraints, checkUsedQuantity,
      checkReturnedQuantity, applyVals])).1 rfl

/-- Skipping non-positive lines inside the loop equals pre-filtering them. -/
theorem applyWrites_skip_eq (tag : Bool) (upd : MaterialLine → ℚ → MaterialVals)
    (ls : List WizLine) :
    ∀ (ms : List MaterialLine) (evs : List Event),
      applyWizardWrites tag upd true ms ls evs =
        applyWizardWrites tag upd false ms (ls.filter fun l => decide (l.qty > 0)) evs := by
  induction ls with
  | nil => intro ms evs; rfl
  | cons l rest ih =>
    intro ms evs
    by_cases hq : l.qty > 0
    · cases hmi : l.materialIdx with
      | none => simp [applyWizardWrites, List.filter_cons, hq, hmi]
      | some i =>
        cases hms : ms[i]? with
        | none => simp [applyWizardWrites, List.filter_cons, hq, hmi, hms]
        | some m =>
          cases hw : materialWrite tag m (upd m l.qty) with
          | error e => simp [applyWizardWrites, List.filter_cons, hq, hmi, hms, hw]
          | ok r => simp [applyWizardWrites, List.filter_cons, hq, hmi, hms, hw, ih]
    · simp [applyWizardWrites, List.filter_cons, hq, ih]

/-- Frame and event shape of the write loop on the no-skip path: the length of
the material list is preserved, only lineWrite events with the loop tag are
appended, and lines not referenced by any wizard line keep their value. -/
theorem applyWrites_ok_frame (tag : Bool) (upd : MaterialLine → ℚ → MaterialVals)
    (ls : List WizLine) :
    ∀ (ms ms2 : List MaterialLine) (evs evs2 : List Event),
      applyWizardWrites tag upd false ms ls evs = Except.ok (ms2, evs2) →
      ms2.length = ms.length ∧
      (∃ ws, evs2 = evs ++ ws ∧ ∀ e ∈ ws, ∃ i, e = Event.lineWrite i tag) ∧
      (∀ j, (∀ l ∈ ls, l.materialIdx ≠ some j) → ms2[j]? = ms[j]?) := by
  induction ls with
  | nil =>
    intro ms ms2 evs evs2 h
    simp only [applyWizardWrites, Except.ok.injEq, Prod.mk.injEq] at h
    obtain ⟨h1, h2⟩ := h
    subst h1
    subst h2
    exact ⟨rfl, ⟨[], by simp, by simp⟩, fun j _ => rfl⟩
  | cons l rest ih =>
    intro ms ms2 evs evs2 h
    cases hmi : l.materialIdx with
    | none => simp [applyWizardWrites, hmi] at h
    | some i =>
      cases hms : ms[i]? with
      | none => simp [applyWizardWrites, hmi, hms] at h
      | some m =>
        cases hw : materialWrite tag m (upd m l.qty) with
        | error e => simp [applyWizardWrites, hmi, hms, hw] at h
        | ok r =>
          simp only [applyWizardWrites, hmi, hms, hw, Bool.false_and, Bool.false_eq_true,
            if_false] at h
          obtain ⟨hlen, ⟨ws, hws, hwr⟩, hunt⟩ :=
            ih (ms.set i r.line) ms2 (evs ++ [Event.lineWrite i tag]) evs2 h
          refine ⟨?_, ⟨Event.lineWrite i tag :: ws, ?_, ?_⟩, ?_⟩
          · rw [hlen, List.length_set]
          · rw [hws, List.append_assoc]; rfl
          · intro e he
            rcases List.mem_cons.mp he with rfl | he2
            · exact ⟨i, rfl⟩
            · exact hwr e he2
          · intro j hj
            have hij : i ≠ j := by
              intro hij
              exact hj l (List.mem_cons_self l rest) (by rw [hmi, hij])
            rw [hunt j fun l2 hl2 => hj l2 (List.mem_cons_of_mem l hl2),
              List.getElem?_set_ne hij]

/-- Per-line effect of the write loop on the no-skip path: when the wizard
lines reference pairwise distinct material lines, each referenced line ends as
the old line with the staged vals applied. -/
theorem applyWrites_ok_update (tag : Bool) (upd : MaterialLine → ℚ → MaterialVals)
    (ls : List WizLine) :
    ∀ (ms ms2 : List MaterialLine) (evs evs2 : List Event),
      applyWizardWrites tag upd false ms ls evs = Except.ok (ms2, evs2) →
      ((ls.map fun l => l.materialIdx).Pairwise fun a b => a ≠ b) →
      ∀ l ∈ ls, ∀ j, l.materialIdx = some j →
        ∃ m, ms[j]? = some m ∧ ms2[j]? = some (applyVals m (upd m l.qty)) := by
  induction ls with
  | nil => intro ms ms2 evs evs2 h hp l hl; cases hl
  | cons l0 rest ih =>
    intro ms ms2 evs evs2 h hp l hl j hj
    rw [List.map_cons, List.pairwise_cons] at hp
    cases hmi : l0.materialIdx with
    | none => simp [applyWizardWrites, hmi] at h
    | some i =>
      cases hms : ms[i]? with
      | none => simp [applyWizardWrites, hmi, hms] at h
      | some m0 =>
        cases hw : materialWrite tag m0 (upd m0 l0.qty) with
        | error e => simp [applyWizardWrites, hmi, hms, hw] at h
        | ok r =>
          simp only [applyWizardWrites, hmi, hms, hw, Bool.false_and, Bool.false_eq_true,
            if_false] at h
          have hrest : ∀ l2 ∈ rest, l0.materialIdx ≠ l2.materialIdx := by
            intro l2 hl2
            exact hmi ▸ fun hc => (hp.1 l2.materialIdx (List.mem_map_of_mem _ hl2)) (hmi ▸ hc)
          rcases List.mem_cons.mp hl with rfl | hmem
          · have hji : i = j := Option.some.inj (hmi.symm.trans hj)
            subst hji
            obtain ⟨hlt, -⟩ := List.getElem?_eq_some_iff.mp hms
            obtain ⟨-, -, hunt⟩ :=
              applyWrites_ok_frame tag upd rest (ms.set i r.line) ms2
                (evs ++ [Event.lineWrite i tag]) evs2 h
            refine ⟨m0, hms, ?_⟩
            rw [hunt i ?_, List.getElem?_set_self (by simpa using hlt)]
            · obtain ⟨hr, -⟩ := materialWrite_ok_eq hw
              rw [hr]
            · intro l2 hl2 hc
              exact hrest l2 hl2 (by rw [hmi, hc])
          · have hij : i ≠ j := by
              intro hc
              exact hrest l hmem (by rw [hmi, hj, hc])
            obtain ⟨m, hm1, hm2⟩ :=
              ih (ms.set i r.line) ms2 (evs ++ [Event.lineWrite i tag]) evs2 h hp.2 l hmem j hj
            rw [List.getElem?_set_ne hij] at hm1
            exact ⟨m, hm1, hm2⟩

/-- Assembly of ConfirmPost from the loop lemmas for a run that starts with
the single picking event. -/
theorem confirmPost_of_applyWrites (tag : Bool) (upd : MaterialLine → ℚ → MaterialVals)
    (updLine : MaterialLine → ℚ → MaterialLine)
    (hupd : ∀ m q, applyVals m (upd m q) = updLine m q)
    (pick : Event) (hpick : Event.isPicking pick = true)
    (ms ms2 : List MaterialLine) (applied : List WizLine) (evs2 : List Event)
    (h : applyWizardWrites tag upd false ms applied [pick] = Except.ok (ms2, evs2)) :
    ConfirmPost tag updLine pick ms applied ms2 evs2 := by
  obtain ⟨hlen, ⟨ws, hws, hwr⟩, hunt⟩ :=
    applyWrites_ok_frame tag upd applied ms ms2 [pick] evs2 h
  have hevs : evs2 = pick :: ws := by simpa using hws
  subst hevs
  refine ⟨rfl, by simpa using hwr, ?_, hlen, hunt, ?_⟩
  · rw [List.filter_cons]
    simp only [hpick, if_true]
    have : ws.filter Event.isPicking = [] := by
      rw [List.filter_eq_nil_iff]
      intro e he
      obtain ⟨i, rfl⟩ := hwr e he
      simp [Event.isPicking]
    rw [this]
  · intro hp l hl j hj
    obtain ⟨m, h1, h2⟩ :=
      applyWrites_ok_update tag upd applied ms ms2 [pick] (pick :: ws) h hp l hl j hj
    exact ⟨m, h1, by rw [← hupd]; exact h2⟩

/-- C6 amended: a successful take or consume confirm creates exactly one
transfer document, via the picking service, before any material line update,
and then advances only the matching accumulator (taken_qty resp. used_qty) of
each affected line by exactly its staged quantity through tagged
(skip_auto_picking) writes leaving the other fields unchanged; a successful
return confirm creates its single transfer document directly - not via the
picking service - before the updates and advances returned_qty by the staged
quantities through untagged writes, which never create a second picking. -/
theorem wizard_confirm_effects :
    (∀ (ms ms2 : List MaterialLine) (ls : List WizLine) (evs : List Event),
      takeConfirm ms ls = Except.ok (ms2, evs) →
      ConfirmPost true (fun m q => { m with takenQty := m.takenQty + q })
        Event.pickingViaService ms (takeLinesFilter ls) ms2 evs) ∧
    (∀ (ms ms2 : List MaterialLine) (ls : List WizLine) (evs : List Event),
      consumeConfirm ms ls = Except.ok (ms2, evs) →
      ConfirmPost true (fun m q => { m with usedQty := m.usedQty + q })
        Event.pickingViaService ms (consumeLinesFilter ls) ms2 evs) ∧
    (∀ (ms ms2 : List MaterialLine) (ls : List WizLine) (evs : List Event),
      returnConfirm ms ls = Except.ok (ms2, evs) →
      ConfirmPost false (fun m q => { m with returnedQty := m.returnedQty + q })
        Event.pickingDirect ms (ls.filter fun l => decide (l.qty > 0)) ms2 evs) := by
  refine ⟨?_, ?_, ?_⟩
  · intro ms ms2 ls evs h
    unfold takeConfirm at h
    by_cases he : (takeLinesFilter ls).isEmpty = true
    · rw [if_pos he] at h; cases h
    · rw [if_neg he] at h
      exact confirmPost_of_applyWrites true takeUpd
        (fun m q => { m with takenQty := m.takenQty + q }) (fun m q => rfl)
        Event.pickingViaService rfl ms ms2 (takeLinesFilter ls) evs h
  · intro ms ms2 ls evs h
    unfold consumeConfirm at h
    by_cases he : (consumeLinesFilter ls).isEmpty = true
    · rw [if_pos he] at h; cases h
    · rw [if_neg he] at h
      exact confirmPost_of_applyWrites true consumeUpd
        (fun m q => { m with usedQty := m.usedQty + q }) (fun m q => rfl)
        Event.pickingViaService rfl ms ms2 (consumeLinesFilter ls) evs h
  · intro ms ms2 ls evs h
    unfold returnConfirm at h
    by_cases he : ls.isEmpty = true
    · rw [if_pos he] at h; cases h
    · rw [if_neg he, applyWrites_skip_eq] at h
      exact confirmPost_of_applyWrites false returnUpd
        (fun m q => { m with returnedQty := m.returnedQty + q }) (fun m q => rfl)
        Event.pickingDirect rfl ms ms2 (ls.filter fun l => decide (l.qty > 0)) evs h

/-- C6 counterexample: a successful return confirm creates its transfer
document directly and performs an untagged line write, so the trace shape the
claim asserts - one picking created via the service and tagged writes - fails
on it. -/
theorem return_confirm_cex :
    returnConfirm [retMat] [retLine] =
      Except.ok ([{ product := 1, takenQty := 10, usedQty := 6, returnedQty := 4 }],
        [Event.pickingDirect, Event.lineWrite 0 false]) ∧
    claimTrace [Event.pickingDirect, Event.lineWrite 0 false] = false := by
  constructor
  · norm_num [returnConfirm, applyWizardWrites, materialWrite, checkConstraints,
      checkUsedQuantity, checkReturnedQuantity, applyVals, changedQtyFields,
      returnUpd, retMat, retLine]
  · rfl

/-- Witness for C6: a take confirm of 3 staged units on a job with one line
advances that line's taken_qty from 0 to 3. -/
theorem wizard_confirm_effects_witness :
    ∃ m, [takeMat][(0:Nat)]? = some m ∧
      [takeMatAfter][(0:Nat)]? = some { m with takenQty := m.takenQty + 3 } := by
  have hok : takeConfirm [takeMat] [takeLine] =
      Except.ok ([takeMatAfter], [Event.pickingViaService, Event.lineWrite 0 true]) := by
    norm_num [takeConfirm, takeLinesFilter, applyWizardWrites, materialWrite,
      checkConstraints, checkUsedQuantity, checkReturnedQuantity, applyVals,
      changedQtyFields, takeUpd, takeMat, takeLine, takeMatAfter]
  have hpw : ((takeLinesFilter [takeLine]).map fun l => l.materialIdx).Pairwise
      (fun a b => a ≠ b) := by
    norm_num [takeLinesFilter, takeLine]
  have hmem : takeLine ∈ takeLinesFilter [takeLine] := by
    norm_num [takeLinesFilter, takeLine]
  exact (wizard_confirm_effects.1 [takeMat] [takeMatAfter] [takeLine]
    [Event.pickingViaService, Event.lineWrite 0 true] hok).2.2.2.2.2 hpw takeLine hmem 0 rfl

/-- C10: confirming the add wizard with one positive-quantity line for a
product that already has a material line updates only the first such line,
increasing taken_qty by the staged quantity with planned_qty (and every other
line) unchanged; for a product with no existing line it appends a new line
with planned_qty and taken_qty both the staged quantity. -/
theorem add_wizard_effects (stdPrice : Nat → ℚ) (ms : List MaterialLine)
    (l : AddWizLine) (hq : 0 < l.qty) :
    (∀ i m ms2, ms.findIdx? (fun m => m.product == l.product) = some i →
      ms[i]? = some m → addConfirm stdPrice ms [l] = Except.ok ms2 →
      ms2 = ms.set i { m with takenQty := m.takenQty + l.qty } ∧
      ms2[i]? = some { m with takenQty := m.takenQty + l.qty } ∧
      (∀ j, j ≠ i → ms2[j]? = ms[j]?) ∧ ms2.length = ms.length) ∧
    (∀ ms2, ms.findIdx? (fun m => m.product == l.product) = none →
      addConfirm stdPrice ms [l] = Except.ok ms2 →
      ms2 = ms ++ [{ product := l.product, plannedQty := l.qty, takenQty := l.qty,
                     usedQty := 0, returnedQty := 0,
                     priceUnit := stdPrice l.product }]) := by
  have hq2 : ¬ l.qty ≤ 0 := not_le.mpr hq
  constructor
  · intro i m ms2 hfi hmi h
    have h2 : addLines stdPrice ms [l] = Except.ok ms2 := by
      simpa [addConfirm] using h
    cases hw : materialWrite false m { takenQty := some (m.takenQty + l.qty) } with
    | error e => simp [addLines, hq2, hfi, hmi, hw] at h2
    | ok r =>
      simp only [addLines, hq2, if_false, hfi, hmi, hw, Except.ok.injEq] at h2
      obtain ⟨hr, -⟩ := materialWrite_ok_eq hw
      obtain ⟨hlt, -⟩ := List.getElem?_eq_some_iff.mp hmi
      have hline : r.line = { m with takenQty := m.takenQty + l.qty } := by
        rw [hr]
        rfl
      subst h2
      refine ⟨by rw [hline], ?_, ?_, List.length_set ..⟩
      · rw [List.getElem?_set_self (by simpa using hlt), hline]
      · intro j hj
        rw [List.getElem?_set_ne (Ne.symm hj)]
  · intro ms2 hfi h
    have h2 : addLines stdPrice ms [l] = Except.ok ms2 := by
      simpa [addConfirm] using h
    cases hw : materialCreate l.product
        { plannedQty := some l.qty, takenQty := some l.qty,
          priceUnit := some (stdPrice l.product) } with
    | error e => simp [addLines, hq2, hfi, hw] at h2
    | ok m2 =>
      simp only [addLines, hq2, if_false, hfi, hw, Except.ok.injEq] at h2
      unfold materialCreate at hw
      cases hc : checkConstraints (applyVals { product := l.product }
          { plannedQty := some l.qty, takenQty := some l.qty,
            priceUnit := some (stdPrice l.product) }) with
      | error e => rw [hc] at hw; cases hw
      | ok u =>
        rw [hc] at hw
        cases hw
        subst h2
        rfl

/-- Witness for C10: adding 3 units of product 2 to a job with no material
lines creates the line with planned and taken both 3 and price 5. -/
theorem add_wizard_effects_witness :
    addConfirm (fun _ => 5) [] [{ product := 2, qty := 3 }] = Except.ok [addedLine] ∧
    [addedLine] = [] ++ [addedLine] := by
  have hok : addConfirm (fun _ => 5) [] [{ product := 2, qty := 3 }] =
      Except.ok [addedLine] := by
    norm_num [addConfirm, addLines, materialCreate, checkConstraints, checkUsedQuantity,
      checkReturnedQuantity, applyVals, addedLine, List.findIdx?]
  exact ⟨hok, (add_wizard_effects (fun _ => 5) [] { product := 2, qty := 3 }
    (by norm_num)).2 [addedLine] rfl hok⟩

end EsfsmStock
